import Mathlib

/-!
Verification development for the RAG evaluation driver of this repository
(`examples/knowledge/evaluation`).  The Python sources are shallowly
embedded: pure functions become Lean functions, the per-question try/except
block of `run_evaluation` becomes a function on an explicit `Except`-valued
knowledge-base model, and the imperative accumulation loop becomes a
`List.foldl`.  Wall-clock measurements (elapsed times) are threaded through
as oracle parameters; floating-point scores and distances are modelled as
exact rationals.
-/

set_option autoImplicit false

namespace RagEval

/-- Metadata dictionaries are modelled as string-to-string association
lists (the driver only ever reads the `"tool_query"` key). -/
abbrev Metadata := List (String × String)

/-- `SearchResult` from `knowledge_system/base.py`: content, score,
metadata and an optional trace.  The trace dictionary is abstracted to its
`"tool_queries"` list, the only part the driver reads apart from
`tool_calls` (not exercised by the CrewAI backend). -/
structure SearchResult where
  content : String
  score : ℚ
  metadata : Metadata
  trace : Option (List String) := none
  deriving DecidableEq, Repr

/-- `QAItem`: a question paired with its ground-truth answer. -/
structure QAItem where
  question : String
  answer : String
  deriving DecidableEq, Repr

/-- `EvaluationSample` from `evaluator/base.py`. -/
structure EvaluationSample where
  question : String
  answer : String
  contexts : List String
  ground_truth : String
  deriving DecidableEq, Repr

/-- An entry of the `errors` list built at `main.py:294`:
`{"question": ..., "error": str(e), "time": qa_elapsed}`. -/
structure ErrorEntry where
  question : String
  error : String
  time : ℚ
  deriving DecidableEq, Repr

/-- An entry of the `sample_debug` list (`main.py:285-290, 305-310`). -/
structure DebugEntry where
  question : String
  retrieval_queries : List String
  deriving DecidableEq, Repr

/-- `_normalize_query` (`main.py:17-23`): strip the string and keep it only
when non-empty.  (The `isinstance` guard is vacuous here since the
embedding is typed.) -/
def _normalize_query (query : String) : Option String :=
  let normalized := query.trim
  if normalized.isEmpty then none else some normalized

/-- Recursive worker for `_dedupe_queries`: the Python loop's `seen` set is
the accumulator list, and `deduped.append` becomes the produced cons. -/
def dedupeGo (seen : List String) : List String → List String
  | [] => []
  | query :: rest =>
      if query ∈ seen then dedupeGo seen rest
      else query :: dedupeGo (query :: seen) rest

/-- `_dedupe_queries` (`main.py:44-53`): drop duplicates, keeping the first
occurrence of each query. -/
def _dedupe_queries (queries : List String) : List String :=
  dedupeGo [] queries

/-- `extract_retrieval_queries` (`main.py:56-106`), with the trace
abstracted to its `tool_queries` list.  Strict mode returns the question
itself; native mode collects per-result `tool_query` metadata, then the
queries of the first result carrying a trace (falling back to
`kb.last_trace`), and dedupes. -/
def extract_retrieval_queries (question : String) (eval_mode : String)
    (search_results : List SearchResult)
    (fallback_trace : Option (List String)) : List String :=
  if eval_mode = "strict" then [question]
  else
    let metaQueries := search_results.filterMap fun r =>
      (r.metadata.lookup "tool_query").bind _normalize_query
    let trace := match (search_results.filterMap (·.trace)).head? with
      | some t => some t
      | none => fallback_trace
    let traceQueries := match trace with
      | some qs => qs.filterMap _normalize_query
      | none => []
    _dedupe_queries (metaQueries ++ traceQueries)

/-- The knowledge-base interface seen by the driver
(`knowledge_system/base.py`), with Python exceptions modelled as `Except`
errors carrying the exception text. -/
structure KB where
  search : String → Nat → Except String (List SearchResult)
  answer : String → Nat → Except String (String × List SearchResult)
  last_trace : Option (List String) := none

/-- One knowledge-base call issued by the driver, recording the method and
its arguments. -/
inductive KBCall where
  | search (question : String) (k : Nat)
  | answer (question : String) (k : Nat)
  deriving DecidableEq, Repr

/-- Whether a call is a `kb.search` call. -/
def KBCall.isSearch : KBCall → Bool
  | .search _ _ => true
  | .answer _ _ => false

/-- Whether a call is a `kb.answer` call. -/
def KBCall.isAnswer : KBCall → Bool
  | .search _ _ => false
  | .answer _ _ => true

/-- Result of processing one QA item in the loop body of `run_evaluation`
(`main.py:227-310`): the appended sample, the optional error entry, the
debug entry, and the knowledge-base calls issued. -/
structure ItemOutcome where
  sample : EvaluationSample
  error : Option ErrorEntry
  debug : DebugEntry
  calls : List KBCall
  deriving DecidableEq, Repr

/-- Success path of the loop body (`main.py:247-290`): empty contexts are
replaced by the placeholder, the sample and debug entries are appended and
no error entry is produced. -/
def successOutcome (kb : KB) (eval_mode : String) (qa : QAItem)
    (answer : String) (contexts : List String)
    (search_results : List SearchResult) (calls : List KBCall) : ItemOutcome :=
  let retrieval_queries :=
    extract_retrieval_queries qa.question eval_mode search_results kb.last_trace
  let contexts := if contexts.isEmpty then ["No relevant context found."] else contexts
  { sample := { question := qa.question, answer := answer,
                contexts := contexts, ground_truth := qa.answer }
    error := none
    debug := { question := qa.question, retrieval_queries := retrieval_queries }
    calls := calls }

/-- Exception path of the loop body (`main.py:291-310`): an error entry is
recorded and a placeholder sample with fixed failure text is appended. -/
def failedOutcome (qa : QAItem) (e : String) (elapsed : ℚ)
    (calls : List KBCall) : ItemOutcome :=
  { sample := { question := qa.question
                answer := "Error: failed to generate answer."
                contexts := ["No relevant context found."]
                ground_truth := qa.answer }
    error := some { question := qa.question, error := e, time := elapsed }
    debug := { question := qa.question, retrieval_queries := [] }
    calls := calls }

/-- The body of the Q&A loop (`main.py:231-310`) for one QA item.  In
strict mode the driver issues `kb.search` and then `kb.answer`; in native
mode a single `kb.answer`.  An error raised by either call aborts the try
block, so a failing strict-mode search never reaches `kb.answer`. -/
def processItem (kb : KB) (eval_mode : String) (retrieval_k : Nat)
    (elapsed : ℚ) (qa : QAItem) : ItemOutcome :=
  if eval_mode = "strict" then
    match kb.search qa.question retrieval_k with
    | .error e =>
        failedOutcome qa e elapsed [KBCall.search qa.question retrieval_k]
    | .ok search_results =>
        let contexts := search_results.map (·.content)
        match kb.answer qa.question retrieval_k with
        | .error e =>
            failedOutcome qa e elapsed
              [KBCall.search qa.question retrieval_k,
               KBCall.answer qa.question retrieval_k]
        | .ok (answer, _) =>
            successOutcome kb eval_mode qa answer contexts search_results
              [KBCall.search qa.question retrieval_k,
               KBCall.answer qa.question retrieval_k]
  else
    match kb.answer qa.question retrieval_k with
    | .error e =>
        failedOutcome qa e elapsed [KBCall.answer qa.question retrieval_k]
    | .ok (answer, search_results) =>
        successOutcome kb eval_mode qa answer (search_results.map (·.content))
          search_results [KBCall.answer qa.question retrieval_k]

/-- The first exception text raised while processing one QA item, `none`
when the item succeeds.  Mirrors the control flow of the try block: in
strict mode a search error pre-empts the answer call. -/
def raisedError (kb : KB) (eval_mode : String) (retrieval_k : Nat)
    (qa : QAItem) : Option String :=
  if eval_mode = "strict" then
    match kb.search qa.question retrieval_k with
    | .error e => some e
    | .ok _ =>
        match kb.answer qa.question retrieval_k with
        | .error e => some e
        | .ok _ => none
  else
    match kb.answer qa.question retrieval_k with
    | .error e => some e
    | .ok _ => none

/-- The mutable accumulators of the Q&A loop (`main.py:221-224`). -/
structure LoopState where
  samples : List EvaluationSample
  errors : List ErrorEntry
  sampleDebug : List DebugEntry
  deriving DecidableEq, Repr

/-- Initial accumulators: three empty lists. -/
def initLoopState : LoopState := { samples := [], errors := [], sampleDebug := [] }

/-- One iteration of the Q&A loop: append the item's sample and debug
entry, and its error entry when present. -/
def loopStep (kb : KB) (eval_mode : String) (retrieval_k : Nat)
    (elapsed : QAItem → ℚ) (st : LoopState) (qa : QAItem) : LoopState :=
  let o := processItem kb eval_mode retrieval_k (elapsed qa) qa
  { samples := st.samples ++ [o.sample]
    errors := st.errors ++ o.error.toList
    sampleDebug := st.sampleDebug ++ [o.debug] }

/-- The whole Q&A loop (`main.py:227-310`), one sequential pass over the
QA items. -/
def qaLoop (kb : KB) (eval_mode : String) (retrieval_k : Nat)
    (elapsed : QAItem → ℚ) (st : LoopState) (qa_items : List QAItem) : LoopState :=
  qa_items.foldl (loopStep kb eval_mode retrieval_k elapsed) st

/-- JSON values, enough to express the report `json.dump`ed at
`main.py:360-375`.  `json.dump` of such a value followed by `json.loads`
is the identity, so the written report is identified with the value. -/
inductive JsonVal where
  | str (s : String)
  | num (n : ℚ)
  | arr (elems : List JsonVal)
  | obj (fields : List (String × JsonVal))

/-- JSON form of an error entry (the dict built at `main.py:294`). -/
def errorEntryToJson (e : ErrorEntry) : JsonVal :=
  .obj [("question", .str e.question), ("error", .str e.error), ("time", .num e.time)]

/-- JSON form of a sample-debug entry. -/
def debugEntryToJson (d : DebugEntry) : JsonVal :=
  .obj [("question", .str d.question),
        ("retrieval_queries", .arr (d.retrieval_queries.map JsonVal.str))]

/-- The `output_data` mapping of `main.py:360-373`, with the manifest and
timing sub-objects passed through as opaque values (they record wall-clock
and platform data). -/
def buildReport (manifest timing : JsonVal) (samples : List EvaluationSample)
    (errors : List ErrorEntry) (result : String)
    (sample_debug : List DebugEntry) : List (String × JsonVal) :=
  [("manifest", manifest),
   ("timing", timing),
   ("samples_count", .num samples.length),
   ("errors_count", .num errors.length),
   ("result", .str result),
   ("errors", .arr (errors.map errorEntryToJson)),
   ("sample_debug", .arr (sample_debug.map debugEntryToJson))]

/-- Observable outcome of one `run_evaluation` call: the returned string,
whether `evaluator.evaluate` was invoked, and the report written to
`output_file` (`none` when nothing was written). -/
structure RunOutput where
  returned : String
  evaluatorInvoked : Bool
  writtenReport : Option (List (String × JsonVal))

/-- `run_evaluation` from the Q&A loop onwards (`main.py:219-378`).  The
evaluator is a function from samples to either an exception text or the
formatted result string.  Document/QA loading (steps 1-2) only fixes
`qa_items` and is taken as the given input list. -/
def run_evaluation (kb : KB)
    (evaluate : List EvaluationSample → Except String String)
    (eval_mode : String) (retrieval_k : Nat) (elapsed : QAItem → ℚ)
    (qa_items : List QAItem) (output_file : Option String)
    (manifest timing : JsonVal) : RunOutput :=
  let st := qaLoop kb eval_mode retrieval_k elapsed initLoopState qa_items
  if st.samples.isEmpty then
    { returned := "❌ No samples collected. Cannot run evaluation."
      evaluatorInvoked := false
      writtenReport := none }
  else
    match evaluate st.samples with
    | .error e =>
        { returned := "❌ Evaluation failed: " ++ e
          evaluatorInvoked := true
          writtenReport := none }
    | .ok result =>
        { returned := result
          evaluatorInvoked := true
          writtenReport := output_file.map fun _ =>
            buildReport manifest timing st.samples st.errors result st.sampleDebug }

/-! ### CrewAI knowledge base (`knowledge_system/crewai/knowledge_base.py`) -/

/-- The step used by `_split_text` (`knowledge_base.py:190-192`):
`chunk_size - chunk_overlap`, replaced by `chunk_size` when not positive.
Sizes are naturals, so `step <= 0` is `step = 0`. -/
def splitStep (chunk_size chunk_overlap : Nat) : Nat :=
  let step := chunk_size - chunk_overlap
  if step = 0 then chunk_size else step

/-- Worker for `_split_text`: emit the window starting at `start`, stop
after the window that reaches the end of the text.  The fuel argument only
bounds the recursion; `text.length` suffices whenever the step is
positive. -/
def splitGo (chunk_size step : Nat) (text : List Char) : Nat → Nat → List (List Char)
  | _, 0 => []
  | start, fuel + 1 =>
      let chunk := (text.drop start).take chunk_size
      if text.length ≤ start + chunk_size then [chunk]
      else chunk :: splitGo chunk_size step text (start + step) fuel

/-- `CrewAIKnowledgeBase._split_text` (`knowledge_base.py:185-198`): empty
text yields no chunks, otherwise fixed-size windows of `chunk_size`
characters advancing by `splitStep`, breaking once a window reaches the end
of the text.  Text is a character list; Python's `text[start:end]` is
`(text.drop start).take chunk_size`. -/
def _split_text (chunk_size chunk_overlap : Nat) (text : List Char) : List (List Char) :=
  if text = [] then []
  else splitGo chunk_size (splitStep chunk_size chunk_overlap) text 0 text.length

/-- Score normalization of `CrewAIKnowledgeBase.search`
(`knowledge_base.py:331-336`): `1 - distance` when a distance is present
(`0.5` otherwise), clamped into `[0, 1]`. -/
def crewaiScore (distance : Option ℚ) : ℚ :=
  let score := match distance with
    | some d => 1 - d
    | none => (1 : ℚ) / 2
  let score := if score < 0 then 0 else score
  if score > 1 then 1 else score

/-- Documents, distances and metadatas of one ChromaDB `collection.query`
answer (`knowledge_base.py:319-327`), already projected to the first (and
only) query's rows. -/
structure ChromaQueryResult where
  documents : List String
  distances : List ℚ
  metadatas : List Metadata

/-- Environment the CrewAI `search` body runs against: an internal
exception anywhere in the try block, a missing knowledge storage path, or
a store with its element count and query answer. -/
inductive ChromaEnv where
  | raise (e : String)
  | noPath
  | store (count : Nat) (query : ChromaQueryResult)

/-- `CrewAIKnowledgeBase.search` (`knowledge_base.py:282-343`): empty list
when the storage path is missing, the collection is empty, or any internal
exception is raised; otherwise one `SearchResult` per returned document,
with out-of-range distances treated as missing and out-of-range metadatas
as `{}` (`knowledge_base.py:330-338`). -/
def crewaiSearch (env : ChromaEnv) : List SearchResult :=
  match env with
  | .raise _ => []
  | .noPath => []
  | .store count query =>
      if count = 0 then []
      else
        query.documents.enum.map fun (i, doc) =>
          { content := doc
            score := crewaiScore (query.distances.get? i)
            metadata := (query.metadatas.get? i).getD []
            trace := none }

/-! ### Concrete fixtures used to evaluate the model on closed inputs -/

/-- A sample QA item. -/
def qaEx : QAItem :=
  { question := "What is the capital of France?", answer := "Paris" }

/-- A sample retrieved context. -/
def ctxEx : SearchResult :=
  { content := "Paris is the capital of France.", score := 1, metadata := [] }

/-- A knowledge base whose calls all succeed. -/
def kbOk : KB :=
  { search := fun _ _ => .ok [ctxEx]
    answer := fun _ _ => .ok ("Paris", [ctxEx]) }

/-- A knowledge base whose `search` raises. -/
def kbSearchRaises : KB :=
  { search := fun _ _ => .error "connection reset"
    answer := fun _ _ => .ok ("Paris", [ctxEx]) }

/-- A knowledge base whose `answer` raises. -/
def kbAnswerRaises : KB :=
  { search := fun _ _ => .ok [ctxEx]
    answer := fun _ _ => .error "timeout" }

/-- A knowledge base that succeeds but retrieves no contexts. -/
def kbEmptyResults : KB :=
  { search := fun _ _ => .ok []
    answer := fun _ _ => .ok ("Paris", []) }

/-- An evaluator that succeeds with a fixed formatted result. -/
def evalOk : List EvaluationSample → Except String String :=
  fun _ => .ok "faithfulness: 0.9"

/-- An evaluator that raises. -/
def evalRaises : List EvaluationSample → Except String String :=
  fun _ => .error "rate limited"

/-! ### Lemmas about `_dedupe_queries` -/

/-- Membership in the dedupe worker: an element of the output is an
element of the input that is not already in `seen`. -/
theorem mem_dedupeGo {x : String} :
    ∀ {seen qs : List String}, x ∈ dedupeGo seen qs ↔ x ∈ qs ∧ x ∉ seen := by
  intro seen qs
  induction qs generalizing seen with
  | nil => simp [dedupeGo]
  | cons q rest ih =>
    by_cases hq : q ∈ seen
    · rw [dedupeGo, if_pos hq, ih]
      constructor
      · rintro ⟨h1, h2⟩
        exact ⟨List.mem_cons_of_mem _ h1, h2⟩
      · rintro ⟨h1, h2⟩
        rcases List.mem_cons.1 h1 with h1 | h1
        · exact absurd (h1 ▸ hq) h2
        · exact ⟨h1, h2⟩
    · rw [dedupeGo, if_neg hq]
      simp only [List.mem_cons, ih]
      constructor
      · rintro (h | ⟨h1, h2⟩)
        · exact ⟨Or.inl h, h ▸ hq⟩
        · exact ⟨Or.inr h1, fun hx => h2 (Or.inr hx)⟩
      · rintro ⟨h1 | h1, h2⟩
        · exact Or.inl h1
        · by_cases hxq : x = q
          · exact Or.inl hxq
          · exact Or.inr ⟨h1, fun hx => hx.elim hxq h2⟩

/-- The dedupe worker never emits duplicates. -/
theorem nodup_dedupeGo : ∀ (seen qs : List String), (dedupeGo seen qs).Nodup
  | _, [] => List.Pairwise.nil
  | seen, q :: rest => by
    by_cases hq : q ∈ seen
    · rw [dedupeGo, if_pos hq]
      exact nodup_dedupeGo seen rest
    · rw [dedupeGo, if_neg hq]
      refine List.nodup_cons.2 ⟨?_, nodup_dedupeGo (q :: seen) rest⟩
      intro hmem
      exact (mem_dedupeGo.1 hmem).2 (List.mem_cons_self q seen)

/-- The dedupe worker's output is a subsequence of its input. -/
theorem dedupeGo_sublist : ∀ (seen qs : List String), List.Sublist (dedupeGo seen qs) qs
  | _, [] => List.Sublist.refl []
  | seen, q :: rest => by
    by_cases hq : q ∈ seen
    · rw [dedupeGo, if_pos hq]
      exact (dedupeGo_sublist seen rest).cons q
    · rw [dedupeGo, if_neg hq]
      exact (dedupeGo_sublist (q :: seen) rest).cons₂ q

/-- Lifting a pairwise first-index ordering along a fresh head: elements
different from `q` keep their relative first-occurrence order in `q :: rest`. -/
theorem pairwise_indexOf_lift {q : String} {rest : List String} :
    ∀ {l : List String}, (∀ x ∈ l, x ≠ q) →
      l.Pairwise (fun a b => rest.indexOf a < rest.indexOf b) →
      l.Pairwise (fun a b => (q :: rest).indexOf a < (q :: rest).indexOf b) := by
  intro l
  induction l with
  | nil => intro _ _; exact List.Pairwise.nil
  | cons a t ih =>
    intro hne hp
    rw [List.pairwise_cons] at hp ⊢
    refine ⟨?_, ih (fun x hx => hne x (List.mem_cons_of_mem _ hx)) hp.2⟩
    intro b hb
    have ha : a ≠ q := hne a (List.mem_cons_self a t)
    have hbq : b ≠ q := hne b (List.mem_cons_of_mem _ hb)
    rw [List.indexOf_cons_ne rest (Ne.symm ha), List.indexOf_cons_ne rest (Ne.symm hbq)]
    exact Nat.succ_lt_succ (hp.1 b hb)

/-- The dedupe worker's output is ordered by first occurrence in the
input. -/
theorem dedupeGo_pairwise : ∀ (qs seen : List String),
    (dedupeGo seen qs).Pairwise (fun a b => qs.indexOf a < qs.indexOf b)
  | [], _ => List.Pairwise.nil
  | q :: rest, seen => by
    by_cases hq : q ∈ seen
    · rw [dedupeGo, if_pos hq]
      refine pairwise_indexOf_lift ?_ (dedupeGo_pairwise rest seen)
      intro x hx hxq
      exact (mem_dedupeGo.1 hx).2 (hxq ▸ hq)
    · rw [dedupeGo, if_neg hq]
      rw [List.pairwise_cons]
      constructor
      · intro b hb
        have hbq : b ≠ q := fun h =>
          (mem_dedupeGo.1 hb).2 (h ▸ List.mem_cons_self q seen)
        rw [List.indexOf_cons_self, List.indexOf_cons_ne rest (Ne.symm hbq)]
        exact Nat.succ_pos _
      · refine pairwise_indexOf_lift ?_ (dedupeGo_pairwise rest (q :: seen))
        intro x hx hxq
        exact (mem_dedupeGo.1 hx).2 (hxq ▸ List.mem_cons_self q seen)

/-- A list without duplicates avoiding `seen` passes through the dedupe
worker unchanged. -/
theorem dedupeGo_of_nodup : ∀ {qs seen : List String}, qs.Nodup →
    (∀ x ∈ qs, x ∉ seen) → dedupeGo seen qs = qs
  | [], _, _, _ => rfl
  | q :: rest, seen, hnd, hdisj => by
    rw [dedupeGo, if_neg (hdisj q (List.mem_cons_self q rest))]
    congr 1
    refine dedupeGo_of_nodup (List.nodup_cons.1 hnd).2 ?_
    intro x hx hmem
    rcases List.mem_cons.1 hmem with h | h
    · exact (List.nodup_cons.1 hnd).1 (h ▸ hx)
    · exact hdisj x (List.mem_cons_of_mem _ hx) h

/-- C9: `_dedupe_queries` returns a duplicate-free list whose elements are
exactly those of the input, as a subsequence of the input ordered by first
occurrence, and it is idempotent. -/
theorem dedupe_queries_spec (queries : List String) :
    (_dedupe_queries queries).Nodup ∧
    (∀ q, q ∈ _dedupe_queries queries ↔ q ∈ queries) ∧
    List.Sublist (_dedupe_queries queries) queries ∧
    (_dedupe_queries queries).Pairwise
      (fun a b => queries.indexOf a < queries.indexOf b) ∧
    _dedupe_queries (_dedupe_queries queries) = _dedupe_queries queries := by
  refine ⟨nodup_dedupeGo [] queries, ?_, dedupeGo_sublist [] queries,
    dedupeGo_pairwise queries [], ?_⟩
  · intro q
    rw [_dedupe_queries, mem_dedupeGo]
    simp
  · exact dedupeGo_of_nodup (nodup_dedupeGo [] queries) (fun x _ hx => by cases hx)

/-! ### Lemmas about the Q&A loop -/

/-- One loop iteration appends exactly one sample. -/
theorem loopStep_samples_length (kb : KB) (eval_mode : String) (retrieval_k : Nat)
    (elapsed : QAItem → ℚ) (st : LoopState) (qa : QAItem) :
    (loopStep kb eval_mode retrieval_k elapsed st qa).samples.length =
      st.samples.length + 1 := by
  simp [loopStep]

/-- The loop adds one sample per processed QA item. -/
theorem qaLoop_samples_length (kb : KB) (eval_mode : String) (retrieval_k : Nat)
    (elapsed : QAItem → ℚ) :
    ∀ (qa_items : List QAItem) (st : LoopState),
      (qaLoop kb eval_mode retrieval_k elapsed st qa_items).samples.length =
        st.samples.length + qa_items.length
  | [], st => rfl
  | qa :: rest, st => by
    show (qaLoop kb eval_mode retrieval_k elapsed
      (loopStep kb eval_mode retrieval_k elapsed st qa) rest).samples.length = _
    rw [qaLoop_samples_length kb eval_mode retrieval_k elapsed rest,
      loopStep_samples_length]
    simp only [List.length_cons]
    omega

/-- C1: the Q&A loop collects exactly one `EvaluationSample` per QA item
attempted: each iteration appends exactly one sample, so the total count
equals the number of items, failures included. -/
theorem qaLoop_sample_count (kb : KB) (eval_mode : String) (retrieval_k : Nat)
    (elapsed : QAItem → ℚ) (qa_items : List QAItem) :
    (∀ (st : LoopState) (qa : QAItem),
      (loopStep kb eval_mode retrieval_k elapsed st qa).samples.length =
        st.samples.length + 1) ∧
    (qaLoop kb eval_mode retrieval_k elapsed initLoopState qa_items).samples.length =
      qa_items.length := by
  refine ⟨loopStep_samples_length kb eval_mode retrieval_k elapsed, ?_⟩
  rw [qaLoop_samples_length]
  simp [initLoopState]

/-- C4: with zero collected samples, `run_evaluation` returns the fixed
message and never invokes the evaluator. -/
theorem no_samples_short_circuit (kb : KB)
    (evaluate : List EvaluationSample → Except String String)
    (eval_mode : String) (retrieval_k : Nat) (elapsed : QAItem → ℚ)
    (qa_items : List QAItem) (output_file : Option String) (manifest timing : JsonVal)
    (h : (qaLoop kb eval_mode retrieval_k elapsed initLoopState qa_items).samples = []) :
    (run_evaluation kb evaluate eval_mode retrieval_k elapsed qa_items output_file
        manifest timing).returned = "❌ No samples collected. Cannot run evaluation." ∧
    (run_evaluation kb evaluate eval_mode retrieval_k elapsed qa_items output_file
        manifest timing).evaluatorInvoked = false := by
  constructor <;> simp [run_evaluation, h]

/-- Witness for C4: an empty QA list yields the fixed message and no
evaluator call. -/
theorem no_samples_short_circuit_witness :
    (run_evaluation kbOk evalOk "native" 4 (fun _ => 0) [] none
        (JsonVal.str "m") (JsonVal.str "t")).returned =
      "❌ No samples collected. Cannot run evaluation." ∧
    (run_evaluation kbOk evalOk "native" 4 (fun _ => 0) [] none
        (JsonVal.str "m") (JsonVal.str "t")).evaluatorInvoked = false :=
  no_samples_short_circuit kbOk evalOk "native" 4 (fun _ => 0) [] none
    (JsonVal.str "m") (JsonVal.str "t") rfl

/-- C5: when the evaluator raises, `run_evaluation` fails fast: it returns
the error string built from the exception text, and no report is written,
whatever `output_file` was. -/
theorem evaluator_failure_fail_fast (kb : KB)
    (evaluate : List EvaluationSample → Except String String)
    (eval_mode : String) (retrieval_k : Nat) (elapsed : QAItem → ℚ)
    (qa_items : List QAItem) (output_file : Option String) (manifest timing : JsonVal)
    (e : String)
    (hne : (qaLoop kb eval_mode retrieval_k elapsed initLoopState qa_items).samples ≠ [])
    (hev : evaluate
      (qaLoop kb eval_mode retrieval_k elapsed initLoopState qa_items).samples =
      .error e) :
    (run_evaluation kb evaluate eval_mode retrieval_k elapsed qa_items output_file
        manifest timing).returned = "❌ Evaluation failed: " ++ e ∧
    (run_evaluation kb evaluate eval_mode retrieval_k elapsed qa_items output_file
        manifest timing).evaluatorInvoked = true ∧
    (run_evaluation kb evaluate eval_mode retrieval_k elapsed qa_items output_file
        manifest timing).writtenReport = none := by
  refine ⟨?_, ?_, ?_⟩ <;> simp [run_evaluation, List.isEmpty_iff, hne, hev]

/-- Witness for C5: a raising evaluator on one collected sample, with an
output file requested, returns the error string and writes nothing. -/
theorem evaluator_failure_fail_fast_witness :
    (run_evaluation kbOk evalRaises "native" 4 (fun _ => 0) [qaEx] (some "eval.json")
        (JsonVal.str "m") (JsonVal.str "t")).returned =
      "❌ Evaluation failed: " ++ "rate limited" ∧
    (run_evaluation kbOk evalRaises "native" 4 (fun _ => 0) [qaEx] (some "eval.json")
        (JsonVal.str "m") (JsonVal.str "t")).evaluatorInvoked = true ∧
    (run_evaluation kbOk evalRaises "native" 4 (fun _ => 0) [qaEx] (some "eval.json")
        (JsonVal.str "m") (JsonVal.str "t")).writtenReport = none :=
  evaluator_failure_fail_fast kbOk evalRaises "native" 4 (fun _ => 0) [qaEx]
    (some "eval.json") (JsonVal.str "m") (JsonVal.str "t") "rate limited"
    (by decide) rfl

/-- C6: when an output file is given and the run reaches persistence, the
written report maps `manifest`, `timing`, `samples_count`, `errors_count`,
`result` and `errors` to the expected values; in particular
`samples_count` is the number of collected samples (one per QA item) and
`errors_count` the number of recorded per-question errors. -/
theorem report_schema (kb : KB)
    (evaluate : List EvaluationSample → Except String String)
    (eval_mode : String) (retrieval_k : Nat) (elapsed : QAItem → ℚ)
    (qa_items : List QAItem) (path : String) (manifest timing : JsonVal)
    (result : String)
    (hne : (qaLoop kb eval_mode retrieval_k elapsed initLoopState qa_items).samples ≠ [])
    (hok : evaluate
      (qaLoop kb eval_mode retrieval_k elapsed initLoopState qa_items).samples =
      .ok result) :
    ∃ rpt,
      (run_evaluation kb evaluate eval_mode retrieval_k elapsed qa_items (some path)
        manifest timing).writtenReport = some rpt ∧
      rpt.lookup "manifest" = some manifest ∧
      rpt.lookup "timing" = some timing ∧
      rpt.lookup "samples_count" = some (JsonVal.num
        ((qaLoop kb eval_mode retrieval_k elapsed initLoopState qa_items).samples.length)) ∧
      (qaLoop kb eval_mode retrieval_k elapsed initLoopState qa_items).samples.length =
        qa_items.length ∧
      rpt.lookup "errors_count" = some (JsonVal.num
        ((qaLoop kb eval_mode retrieval_k elapsed initLoopState qa_items).errors.length)) ∧
      rpt.lookup "result" = some (JsonVal.str result) ∧
      rpt.lookup "errors" = some (JsonVal.arr
        ((qaLoop kb eval_mode retrieval_k elapsed initLoopState qa_items).errors.map
          errorEntryToJson)) := by
  refine ⟨buildReport manifest timing
      (qaLoop kb eval_mode retrieval_k elapsed initLoopState qa_items).samples
      (qaLoop kb eval_mode retrieval_k elapsed initLoopState qa_items).errors
      result
      (qaLoop kb eval_mode retrieval_k elapsed initLoopState qa_items).sampleDebug,
    ?_, rfl, rfl, rfl, ?_, rfl, rfl, rfl⟩
  · simp [run_evaluation, List.isEmpty_iff, hne, hok]
  · rw [qaLoop_samples_length]
    simp [initLoopState]

/-- Witness for C6: a successful one-item run with an output file produces
a report carrying all six keys with the expected counts. -/
theorem report_schema_witness :
    ∃ rpt,
      (run_evaluation kbOk evalOk "native" 4 (fun _ => 0) [qaEx] (some "eval.json")
        (JsonVal.str "m") (JsonVal.str "t")).writtenReport = some rpt ∧
      rpt.lookup "manifest" = some (JsonVal.str "m") ∧
      rpt.lookup "timing" = some (JsonVal.str "t") ∧
      rpt.lookup "samples_count" = some (JsonVal.num
        ((qaLoop kbOk "native" 4 (fun _ => 0) initLoopState [qaEx]).samples.length)) ∧
      (qaLoop kbOk "native" 4 (fun _ => 0) initLoopState [qaEx]).samples.length =
        [qaEx].length ∧
      rpt.lookup "errors_count" = some (JsonVal.num
        ((qaLoop kbOk "native" 4 (fun _ => 0) initLoopState [qaEx]).errors.length)) ∧
      rpt.lookup "result" = some (JsonVal.str "faithfulness: 0.9") ∧
      rpt.lookup "errors" = some (JsonVal.arr
        ((qaLoop kbOk "native" 4 (fun _ => 0) initLoopState [qaEx]).errors.map
          errorEntryToJson)) :=
  report_schema kbOk evalOk "native" 4 (fun _ => 0) [qaEx] "eval.json"
    (JsonVal.str "m") (JsonVal.str "t") "faithfulness: 0.9" (by decide) rfl

/-- C3: a QA item whose processing raises gets an error entry carrying the
question, the exception text and the elapsed time, a placeholder sample
with the fixed failure answer and placeholder context and the item's
ground truth, and the loop moves directly on to the remaining items. -/
theorem failed_question_placeholder (kb : KB) (eval_mode : String) (retrieval_k : Nat)
    (t : ℚ) (qa : QAItem) (e : String)
    (h : raisedError kb eval_mode retrieval_k qa = some e) :
    (processItem kb eval_mode retrieval_k t qa).error =
      some { question := qa.question, error := e, time := t } ∧
    (processItem kb eval_mode retrieval_k t qa).sample =
      { question := qa.question
        answer := "Error: failed to generate answer."
        contexts := ["No relevant context found."]
        ground_truth := qa.answer } ∧
    (∀ (elapsed : QAItem → ℚ) (st : LoopState) (rest : List QAItem),
      qaLoop kb eval_mode retrieval_k elapsed st (qa :: rest) =
        qaLoop kb eval_mode retrieval_k elapsed
          (loopStep kb eval_mode retrieval_k elapsed st qa) rest) := by
  refine ⟨?_, ?_, fun _ _ _ => rfl⟩ <;>
  · by_cases hm : eval_mode = "strict"
    · cases hs : kb.search qa.question retrieval_k with
      | error e' =>
        simp only [raisedError, if_pos hm, hs, Option.some.injEq] at h
        subst h
        simp [processItem, hm, hs, failedOutcome]
      | ok rs =>
        cases ha : kb.answer qa.question retrieval_k with
        | error e' =>
          simp only [raisedError, if_pos hm, hs, ha, Option.some.injEq] at h
          subst h
          simp [processItem, hm, hs, ha, failedOutcome]
        | ok p =>
          simp only [raisedError, if_pos hm, hs, ha] at h
          exact Option.noConfusion h
    · cases ha : kb.answer qa.question retrieval_k with
      | error e' =>
        simp only [raisedError, if_neg hm, ha, Option.some.injEq] at h
        subst h
        simp [processItem, hm, ha, failedOutcome]
      | ok p =>
        simp only [raisedError, if_neg hm, ha] at h
        exact Option.noConfusion h

/-- Witness for C3: a raising `answer` in native mode yields the error
entry and the placeholder sample. -/
theorem failed_question_placeholder_witness :
    (processItem kbAnswerRaises "native" 4 (3 : ℚ) qaEx).error =
      some { question := qaEx.question, error := "timeout", time := (3 : ℚ) } ∧
    (processItem kbAnswerRaises "native" 4 (3 : ℚ) qaEx).sample =
      { question := qaEx.question
        answer := "Error: failed to generate answer."
        contexts := ["No relevant context found."]
        ground_truth := qaEx.answer } :=
  ⟨(failed_question_placeholder kbAnswerRaises "native" 4 3 qaEx "timeout" rfl).1,
   (failed_question_placeholder kbAnswerRaises "native" 4 3 qaEx "timeout" rfl).2.1⟩

/-- Counterexample to C2 as stated: in strict mode, a QA item on which
`kb.search` raises issues the single search call and no answer call at
all, so the answer-call count is not one. -/
theorem strict_search_failure_skips_answer_call :
    (processItem kbSearchRaises "strict" 4 (0 : ℚ) qaEx).calls =
      [KBCall.search "What is the capital of France?" 4] ∧
    ¬ ((processItem kbSearchRaises "strict" 4 (0 : ℚ) qaEx).calls.countP
        KBCall.isAnswer = 1) := by
  constructor
  · rfl
  · decide

/-- C2 amended: per QA item, native mode issues exactly one `kb.answer`
call and no `kb.search` call; strict mode always issues exactly one
`kb.search` call, followed by exactly one `kb.answer` call when the search
returns, and by no answer call when the search itself raises. -/
theorem per_item_call_pattern (kb : KB) (retrieval_k : Nat) (t : ℚ) (qa : QAItem) :
    (processItem kb "native" retrieval_k t qa).calls =
      [KBCall.answer qa.question retrieval_k] ∧
    (∀ rs, kb.search qa.question retrieval_k = .ok rs →
      (processItem kb "strict" retrieval_k t qa).calls =
        [KBCall.search qa.question retrieval_k,
         KBCall.answer qa.question retrieval_k]) ∧
    (∀ e, kb.search qa.question retrieval_k = .error e →
      (processItem kb "strict" retrieval_k t qa).calls =
        [KBCall.search qa.question retrieval_k]) := by
  refine ⟨?_, ?_, ?_⟩
  · cases ha : kb.answer qa.question retrieval_k with
    | error e => simp [processItem, ha, failedOutcome]
    | ok p => cases p; simp [processItem, ha, successOutcome]
  · intro rs hs
    cases ha : kb.answer qa.question retrieval_k with
    | error e => simp [processItem, hs, ha, failedOutcome]
    | ok p => cases p; simp [processItem, hs, ha, successOutcome]
  · intro e hs
    simp [processItem, hs, failedOutcome]

/-- Witness for C2 amended: the three call patterns at concrete knowledge
bases. -/
theorem per_item_call_pattern_witness :
    (processItem kbOk "native" 4 (0 : ℚ) qaEx).calls =
      [KBCall.answer qaEx.question 4] ∧
    (processItem kbOk "strict" 4 (0 : ℚ) qaEx).calls =
      [KBCall.search qaEx.question 4, KBCall.answer qaEx.question 4] ∧
    (processItem kbSearchRaises "strict" 4 (0 : ℚ) qaEx).calls =
      [KBCall.search qaEx.question 4] :=
  ⟨(per_item_call_pattern kbOk 4 0 qaEx).1,
   (per_item_call_pattern kbOk 4 0 qaEx).2.1 [ctxEx] rfl,
   (per_item_call_pattern kbSearchRaises 4 0 qaEx).2.2 "connection reset" rfl⟩

/-- A successful loop body never produces an empty contexts list: empty
retrievals are replaced by the placeholder. -/
theorem successOutcome_contexts_ne_nil (kb : KB) (m : String) (qa : QAItem)
    (ans : String) (ctxs : List String) (rs : List SearchResult)
    (cls : List KBCall) :
    (successOutcome kb m qa ans ctxs rs cls).sample.contexts ≠ [] := by
  cases ctxs with
  | nil => simp [successOutcome]
  | cons c rest => simp [successOutcome]

/-- Processing one QA item always yields a sample with non-empty contexts,
on the success path and on the failure path alike. -/
theorem processItem_contexts_ne_nil (kb : KB) (eval_mode : String) (retrieval_k : Nat)
    (t : ℚ) (qa : QAItem) :
    (processItem kb eval_mode retrieval_k t qa).sample.contexts ≠ [] := by
  by_cases hm : eval_mode = "strict"
  · cases hs : kb.search qa.question retrieval_k with
    | error e => simp [processItem, hm, hs, failedOutcome]
    | ok rs =>
      cases ha : kb.answer qa.question retrieval_k with
      | error e => simp [processItem, hm, hs, ha, failedOutcome]
      | ok p =>
        cases p
        simp only [processItem, if_pos hm, hs, ha]
        exact successOutcome_contexts_ne_nil _ _ _ _ _ _ _
  · cases ha : kb.answer qa.question retrieval_k with
    | error e => simp [processItem, hm, ha, failedOutcome]
    | ok p =>
      cases p
      simp only [processItem, if_neg hm, ha]
      exact successOutcome_contexts_ne_nil _ _ _ _ _ _ _

/-- The loop preserves non-emptiness of every collected sample's
contexts. -/
theorem qaLoop_contexts_ne_nil (kb : KB) (eval_mode : String) (retrieval_k : Nat)
    (elapsed : QAItem → ℚ) :
    ∀ (qa_items : List QAItem) (st : LoopState),
      (∀ s ∈ st.samples, s.contexts ≠ []) →
      ∀ s ∈ (qaLoop kb eval_mode retrieval_k elapsed st qa_items).samples,
        s.contexts ≠ []
  | [], _, hst => hst
  | qa :: rest, st, hst => by
    show ∀ s ∈ (qaLoop kb eval_mode retrieval_k elapsed
      (loopStep kb eval_mode retrieval_k elapsed st qa) rest).samples, s.contexts ≠ []
    refine qaLoop_contexts_ne_nil kb eval_mode retrieval_k elapsed rest _ ?_
    intro s hs
    rcases List.mem_append.1 hs with h | h
    · exact hst s h
    · rcases List.mem_singleton.1 h with rfl
      exact processItem_contexts_ne_nil kb eval_mode retrieval_k (elapsed qa) qa

/-- C8: every sample built by the driver has a non-empty contexts list;
when a successfully answered question comes back with zero contexts, the
placeholder list is substituted (in native and in strict mode), and failed
questions carry the same placeholder. -/
theorem sample_contexts_nonempty (kb : KB) (eval_mode : String) (retrieval_k : Nat)
    (t : ℚ) (elapsed : QAItem → ℚ) (qa : QAItem) (qa_items : List QAItem) :
    (processItem kb eval_mode retrieval_k t qa).sample.contexts ≠ [] ∧
    (∀ ans, kb.answer qa.question retrieval_k = .ok (ans, []) →
      (processItem kb "native" retrieval_k t qa).sample.contexts =
        ["No relevant context found."]) ∧
    (∀ ans rs, kb.search qa.question retrieval_k = .ok [] →
      kb.answer qa.question retrieval_k = .ok (ans, rs) →
      (processItem kb "strict" retrieval_k t qa).sample.contexts =
        ["No relevant context found."]) ∧
    (∀ s ∈ (qaLoop kb eval_mode retrieval_k elapsed initLoopState qa_items).samples,
      s.contexts ≠ []) := by
  refine ⟨processItem_contexts_ne_nil kb eval_mode retrieval_k t qa, ?_, ?_, ?_⟩
  · intro ans ha
    simp [processItem, if_neg (show ¬("native" = "strict") by decide), ha,
      successOutcome]
  · intro ans rs hs ha
    simp [processItem, hs, ha, successOutcome]
  · exact qaLoop_contexts_ne_nil kb eval_mode retrieval_k elapsed qa_items
      initLoopState (by intro s hs; cases hs)

/-- Witness for C8: zero-context successes get the placeholder in both
modes, and a non-empty retrieval keeps its contexts non-empty. -/
theorem sample_contexts_nonempty_witness :
    (processItem kbEmptyResults "native" 4 (0 : ℚ) qaEx).sample.contexts =
      ["No relevant context found."] ∧
    (processItem kbEmptyResults "strict" 4 (0 : ℚ) qaEx).sample.contexts =
      ["No relevant context found."] ∧
    (processItem kbOk "native" 4 (0 : ℚ) qaEx).sample.contexts ≠ [] :=
  ⟨(sample_contexts_nonempty kbEmptyResults "native" 4 0 (fun _ => 0) qaEx []).2.1
      "Paris" rfl,
   (sample_contexts_nonempty kbEmptyResults "strict" 4 0 (fun _ => 0) qaEx []).2.2.1
      "Paris" [] rfl rfl,
   (sample_contexts_nonempty kbOk "native" 4 0 (fun _ => 0) qaEx []).1⟩

/-! ### Lemmas about `_split_text` -/

/-- A positive chunk size makes the window step positive. -/
theorem splitStep_pos (chunk_size chunk_overlap : Nat) (h : 0 < chunk_size) :
    0 < splitStep chunk_size chunk_overlap := by
  simp only [splitStep]
  split <;> omega

/-- The window step never exceeds the chunk size. -/
theorem splitStep_le (chunk_size chunk_overlap : Nat) :
    splitStep chunk_size chunk_overlap ≤ chunk_size := by
  simp only [splitStep]
  split <;> omega

/-- With any fuel left, the splitting worker emits at least one chunk. -/
theorem splitGo_ne_nil (cs step : Nat) (text : List Char) (start fuel : Nat)
    (hf : 0 < fuel) : splitGo cs step text start fuel ≠ [] := by
  cases fuel with
  | zero => omega
  | succ n =>
    simp only [splitGo]
    split
    · exact List.cons_ne_nil _ _
    · exact List.cons_ne_nil _ _

/-- Indexing the splitting worker: chunk `i` is the window of `cs`
characters starting at `start + i * step`. -/
theorem splitGo_get? (cs step : Nat) (text : List Char) (hstep : 0 < step)
    (hsc : step ≤ cs) :
    ∀ (fuel start i : Nat), start < text.length → text.length ≤ start + fuel →
      i < (splitGo cs step text start fuel).length →
      (splitGo cs step text start fuel).get? i =
        some ((text.drop (start + i * step)).take cs) := by
  intro fuel
  induction fuel with
  | zero =>
    intro start i hlt hle _
    omega
  | succ n ih =>
    intro start i hlt hle hb
    by_cases hend : text.length ≤ start + cs
    · simp only [splitGo, if_pos hend, List.length_singleton] at hb
      have hi : i = 0 := by omega
      subst hi
      simp [splitGo, if_pos hend]
    · simp only [splitGo, if_neg hend, List.length_cons] at hb
      cases i with
      | zero => simp [splitGo, if_neg hend]
      | succ j =>
        have hlt' : start + step < text.length := by omega
        have hle' : text.length ≤ (start + step) + n := by omega
        have hb' : j < (splitGo cs step text (start + step) n).length := by omega
        have harith : start + step + j * step = start + (j + 1) * step := by
          rw [Nat.succ_mul]
          omega
        simp only [splitGo, if_neg hend, List.get?_cons_succ]
        rw [ih (start + step) j hlt' hle' hb', harith]

/-- Every chunk emitted by the splitting worker has at most `cs`
characters. -/
theorem splitGo_chunk_length (cs step : Nat) (text : List Char) :
    ∀ (fuel start : Nat) (c : List Char), c ∈ splitGo cs step text start fuel →
      c.length ≤ cs := by
  intro fuel
  induction fuel with
  | zero => intro start c h; simp [splitGo] at h
  | succ n ih =>
    intro start c h
    simp only [splitGo] at h
    by_cases hend : text.length ≤ start + cs
    · rw [if_pos hend] at h
      rcases List.mem_singleton.1 h with rfl
      exact List.length_take_le _ _
    · rw [if_neg hend] at h
      rcases List.mem_cons.1 h with rfl | h
      · exact List.length_take_le _ _
      · exact ih (start + step) c h

/-- Coverage: every position of the text at or after `start` falls inside
one of the emitted windows. -/
theorem splitGo_cover (cs step : Nat) (text : List Char) (hstep : 0 < step)
    (hsc : step ≤ cs) :
    ∀ (fuel start p : Nat), start < text.length → text.length ≤ start + fuel →
      start ≤ p → p < text.length →
      ∃ i, i < (splitGo cs step text start fuel).length ∧
        start + i * step ≤ p ∧ p < start + i * step + cs := by
  intro fuel
  induction fuel with
  | zero =>
    intro start p hlt hle _ _
    omega
  | succ n ih =>
    intro start p hlt hle hsp hp
    by_cases hend : text.length ≤ start + cs
    · refine ⟨0, ?_, by omega, by omega⟩
      simp [splitGo, if_pos hend]
    · by_cases hpc : p < start + cs
      · refine ⟨0, ?_, by omega, by omega⟩
        simp [splitGo, if_neg hend]
      · obtain ⟨i, h1, h2, h3⟩ := ih (start + step) p (by omega) (by omega)
          (by omega) hp
        have harith : start + step + i * step = start + (i + 1) * step := by
          rw [Nat.succ_mul]
          omega
        refine ⟨i + 1, ?_, ?_, ?_⟩
        · simp only [splitGo, if_neg hend, List.length_cons]
          omega
        · rw [← harith]
          exact h2
        · rw [← harith]
          exact h3

/-- C7: `_split_text` maps the empty text to no chunks and a non-empty
text to a non-empty chunk list where chunk `i` is the slice
`text[i*step : i*step + chunk_size]`, every chunk has at most `chunk_size`
characters, and every character position lies in some chunk's window. -/
theorem split_text_window_spec (chunk_size chunk_overlap : Nat) (text : List Char)
    (hcs : 0 < chunk_size) :
    _split_text chunk_size chunk_overlap [] = [] ∧
    (text ≠ [] →
      _split_text chunk_size chunk_overlap text ≠ [] ∧
      (∀ i, i < (_split_text chunk_size chunk_overlap text).length →
        (_split_text chunk_size chunk_overlap text).get? i =
          some ((text.drop (i * splitStep chunk_size chunk_overlap)).take
            chunk_size)) ∧
      (∀ c ∈ _split_text chunk_size chunk_overlap text, c.length ≤ chunk_size) ∧
      (∀ p, p < text.length → ∃ i,
        i < (_split_text chunk_size chunk_overlap text).length ∧
        i * splitStep chunk_size chunk_overlap ≤ p ∧
        p < i * splitStep chunk_size chunk_overlap + chunk_size)) := by
  have hstep := splitStep_pos chunk_size chunk_overlap hcs
  have hsc := splitStep_le chunk_size chunk_overlap
  refine ⟨rfl, fun hne => ?_⟩
  have hlen : 0 < text.length := List.length_pos.2 hne
  rw [_split_text, if_neg hne]
  refine ⟨splitGo_ne_nil _ _ _ _ _ hlen, ?_, ?_, ?_⟩
  · intro i hb
    have h := splitGo_get? chunk_size (splitStep chunk_size chunk_overlap) text
      hstep hsc text.length 0 i hlen (by omega) hb
    simpa using h
  · exact fun c hc => splitGo_chunk_length _ _ _ _ _ c hc
  · intro p hp
    obtain ⟨i, h1, h2, h3⟩ := splitGo_cover chunk_size
      (splitStep chunk_size chunk_overlap) text hstep hsc text.length 0 p hlen
      (by omega) (Nat.zero_le p) hp
    exact ⟨i, h1, by omega, by omega⟩

/-- Witness for C7: the window decomposition of a concrete 11-character
text with chunk size 5 and overlap 2. -/
theorem split_text_window_spec_witness :
    _split_text 5 2 ("hello world".toList) ≠ [] ∧
    (_split_text 5 2 ("hello world".toList)).get? 1 =
      some ((("hello world".toList).drop (1 * splitStep 5 2)).take 5) ∧
    (∃ i, i < (_split_text 5 2 ("hello world".toList)).length ∧
      i * splitStep 5 2 ≤ 7 ∧ 7 < i * splitStep 5 2 + 5) :=
  ⟨((split_text_window_spec 5 2 ("hello world".toList) (by decide)).2 (by decide)).1,
   ((split_text_window_spec 5 2 ("hello world".toList) (by decide)).2
      (by decide)).2.1 1 (by decide),
   ((split_text_window_spec 5 2 ("hello world".toList) (by decide)).2
      (by decide)).2.2.2 7 (by decide)⟩

/-- The clamped score always lies in the unit interval. -/
theorem crewaiScore_mem_unit (d : Option ℚ) :
    0 ≤ crewaiScore d ∧ crewaiScore d ≤ 1 := by
  cases d with
  | none => constructor <;> norm_num [crewaiScore]
  | some x =>
    simp only [crewaiScore]
    constructor <;> split_ifs <;> linarith

/-- C10: every result of the CrewAI `search` has a score in `[0, 1]`; the
score is `1 - distance` clamped to `0` from below and `1` from above, a
missing distance defaults to `0.5`, and an internal exception yields the
empty result list. -/
theorem crewai_search_score_bounds :
    (∀ (env : ChromaEnv) (r : SearchResult), r ∈ crewaiSearch env →
      0 ≤ r.score ∧ r.score ≤ 1) ∧
    crewaiScore none = 1 / 2 ∧
    (∀ d : ℚ, (1 - d < 0 → crewaiScore (some d) = 0) ∧
      (1 < 1 - d → crewaiScore (some d) = 1) ∧
      (0 ≤ 1 - d → 1 - d ≤ 1 → crewaiScore (some d) = 1 - d)) ∧
    (∀ e, crewaiSearch (ChromaEnv.raise e) = []) := by
  refine ⟨?_, ?_, ?_, fun _ => rfl⟩
  · intro env r hr
    cases env with
    | raise e => cases hr
    | noPath => cases hr
    | store count query =>
      by_cases hc : count = 0
      · simp [crewaiSearch, hc] at hr
      · simp only [crewaiSearch, if_neg hc] at hr
        rcases List.mem_map.1 hr with ⟨⟨i, doc⟩, hmem, rfl⟩
        exact crewaiScore_mem_unit _
  · norm_num [crewaiScore]
  · intro d
    refine ⟨?_, ?_, ?_⟩
    · intro h
      simp only [crewaiScore]
      rw [if_pos h, if_neg (by norm_num : ¬ ((0 : ℚ) > 1))]
    · intro h
      simp only [crewaiScore]
      rw [if_neg (by linarith : ¬ (1 - d < 0)), if_pos h]
    · intro h1 h2
      simp only [crewaiScore]
      rw [if_neg (by linarith : ¬ (1 - d < 0)), if_neg (by linarith : ¬ (1 - d > 1))]

/-- Witness for C10: concrete clamped scores and an exception run of the
CrewAI search. -/
theorem crewai_search_score_bounds_witness :
    (0 ≤ (SearchResult.mk "doc" (crewaiScore (some 3)) [] none).score ∧
      (SearchResult.mk "doc" (crewaiScore (some 3)) [] none).score ≤ 1) ∧
    crewaiScore (some 3) = 0 ∧
    crewaiScore (some (-3)) = 1 ∧
    crewaiScore (some (1 / 4)) = 1 - 1 / 4 ∧
    crewaiSearch (ChromaEnv.raise "db corrupt") = [] :=
  ⟨crewai_search_score_bounds.1 (ChromaEnv.store 1 ⟨["doc"], [3], []⟩)
      (SearchResult.mk "doc" (crewaiScore (some 3)) [] none)
      (List.mem_singleton.2 rfl),
   (crewai_search_score_bounds.2.2.1 3).1 (by norm_num),
   (crewai_search_score_bounds.2.2.1 (-3)).2.1 (by norm_num),
   (crewai_search_score_bounds.2.2.1 (1 / 4)).2.2 (by norm_num) (by norm_num),
   crewai_search_score_bounds.2.2.2 "db corrupt"⟩

end RagEval
